import Mathlib

/-!
Verification of the Nova Defense simulation core (src/src/App.tsx).

This file gives a shallow embedding of the game's data model and per-frame
update logic.  JavaScript numbers are modelled as real numbers; the calls to
Math.random() are modelled as explicit oracle arguments (values in [0,1) are
supplied as hypotheses where a claim needs them).  Mutable refs become
explicit state threading.

One point of JS semantics matters and is modelled carefully: in the explosion
phase the source executes
  explosionsRef.current = explosionsRef.current.filter(e => { ... })
and the filter callback calls createExplosion, which pushes onto
explosionsRef.current, i.e. onto the very array being filtered.  Per the
ECMAScript specification Array.prototype.filter fixes the index range before
the first callback invocation, so pushed elements are never visited, and the
subsequent reassignment replaces the array with the filter result, which
contains only visited, surviving elements.  Consequently explosions pushed
during the explosion phase are discarded at the end of that phase (their
particle bursts and id-counter increments do persist).  The embedding records
those pushes in an explicit `pushed` accumulator field which the phase then
drops, mirroring the reassignment.
-/

open scoped Classical

namespace Nova

/-- Plane coordinates, pixel units. -/
structure Point where
  x : ℝ
  y : ℝ

/-- Particle of the cosmetic burst; `hue` stands for the random color channel. -/
structure Particle where
  x : ℝ
  y : ℝ
  vx : ℝ
  vy : ℝ
  life : ℝ
  hue : ℝ

/-- Missile record, as in the source (`Missile` type, App.tsx lines 22-30). -/
structure Missile where
  id : ℕ
  start : Point
  current : Point
  target : Point
  speed : ℝ
  isEnemy : Bool

/-- Explosion record (App.tsx line 31). -/
structure Explosion where
  id : ℕ
  x : ℝ
  y : ℝ
  radius : ℝ
  maxRadius : ℝ
  timer : ℤ

inductive BuildingType
  | city
  | battery
deriving DecidableEq

inductive Side
  | left
  | center
  | right
deriving DecidableEq

/-- Building record (App.tsx line 32); `batterySide` is `none` for cities. -/
structure Building where
  id : ℕ
  x : ℝ
  y : ℝ
  width : ℝ
  height : ℝ
  isDestroyed : Bool
  type : BuildingType
  batterySide : Option Side

inductive Difficulty
  | easy
  | medium
  | hard
deriving DecidableEq

inductive Phase
  | menu
  | playing
  | won
  | lost
deriving DecidableEq

/-- The three ammo pools (the `ammo` React state). -/
structure Ammo where
  left : ℤ
  center : ℤ
  right : ℤ
deriving DecidableEq

def Ammo.get (a : Ammo) : Side → ℤ
  | Side.left => a.left
  | Side.center => a.center
  | Side.right => a.right

def Ammo.dec (a : Ammo) : Side → Ammo
  | Side.left => { a with left := a.left - 1 }
  | Side.center => { a with center := a.center - 1 }
  | Side.right => { a with right := a.right - 1 }

-- Constants (App.tsx lines 12-18).
def TARGET_SCORE : ℤ := 1000
def INITIAL_AMMO : Ammo := ⟨20, 40, 20⟩
def EXPLOSION_RADIUS : ℝ := 40
def EXPLOSION_DURATION : ℤ := 60
def MISSILE_SPEED : ℝ := 4
def ENEMY_SPEED_MIN : ℝ := 0.5
def ENEMY_SPEED_MAX : ℝ := 1.5

/-- Whole mutable state of one session: the React state (`phase`, `score`,
`ammo`) together with the refs (`missilesRef`, `explosionsRef`,
`buildingsRef`, `particlesRef`, `nextIdRef`, `lastEnemySpawnRef`). -/
structure GameState where
  phase : Phase
  score : ℤ
  ammo : Ammo
  missiles : List Missile
  explosions : List Explosion
  buildings : List Building
  particles : List Particle
  nextId : ℕ
  lastSpawn : ℝ

/-- Euclidean distance, written exactly as the source writes it at each call
site: the square root of the sum of squared coordinate differences. -/
noncomputable def ptDist (p q : Point) : ℝ :=
  Real.sqrt ((p.x - q.x) ^ 2 + (p.y - q.y) ^ 2)

/-- Difficulty modifiers (App.tsx lines 118-124). -/
def getDifficultyModifiers : Difficulty → ℝ × ℝ
  | Difficulty.easy => (0.7, 1.5)
  | Difficulty.hard => (1.3, 0.7)
  | Difficulty.medium => (1.0, 1.0)

def speedMult (d : Difficulty) : ℝ := (getDifficultyModifiers d).1
def spawnMult (d : Difficulty) : ℝ := (getDifficultyModifiers d).2

/-- Fixed building layout built by `initGame` (App.tsx lines 136-150). -/
noncomputable def initBuildings (width height : ℝ) : List Building :=
  let groundY := height - 40
  let spacing := (width - 300) / (6 + 1)
  [⟨0, 50, groundY - 30, 60, 30, false, BuildingType.battery, some Side.left⟩,
   ⟨1, width / 2 - 40, groundY - 40, 80, 40, false, BuildingType.battery, some Side.center⟩,
   ⟨2, width - 110, groundY - 30, 60, 30, false, BuildingType.battery, some Side.right⟩]
  ++ (List.range 6).map (fun i =>
      ⟨3 + i, 150 + ((i : ℝ) + 1) * spacing - 20, groundY - 20, 40, 20, false,
        BuildingType.city, none⟩)

/-- `initGame` (App.tsx lines 127-160): rebuild the layout, clear every
entity collection, reset score and ammo.  It does not touch `nextIdRef`,
the phase, or the spawn-time reference. -/
noncomputable def initGame (width height : ℝ) (s : GameState) : GameState :=
  { s with
      buildings := initBuildings width height
      missiles := []
      explosions := []
      particles := []
      score := 0
      ammo := INITIAL_AMMO }

/-- Placeholder used only as the (never reached) default of the JS array
index read in `spawnEnemy`. -/
def dummyBuilding : Building := ⟨0, 0, 0, 0, 0, false, BuildingType.city, none⟩

/-- The `buildingsRef.current.filter(b => !b.isDestroyed)` of `spawnEnemy`. -/
def standingBuildings (s : GameState) : List Building :=
  s.buildings.filter (fun b => decide (b.isDestroyed = false))

/-- `spawnEnemy` (App.tsx lines 162-183).  The three Math.random() draws are
the oracle arguments `r1` (target choice), `r2` (start x), `r3` (speed). -/
noncomputable def spawnEnemy (width : ℝ) (d : Difficulty) (r1 r2 r3 : ℝ)
    (s : GameState) : GameState :=
  let targetBuildings := standingBuildings s
  if targetBuildings.length = 0 then s
  else
    let target := targetBuildings.getD (Int.toNat ⌊r1 * (targetBuildings.length : ℝ)⌋)
      dummyBuilding
    let startX := r2 * width
    { s with
        missiles := s.missiles ++
          [{ id := s.nextId
             start := ⟨startX, 0⟩
             current := ⟨startX, 0⟩
             target := ⟨target.x + target.width / 2, target.y + target.height / 2⟩
             speed := (ENEMY_SPEED_MIN + r3 * (ENEMY_SPEED_MAX - ENEMY_SPEED_MIN)) * speedMult d
             isEnemy := true }]
        nextId := s.nextId + 1 }

/-- One particle of the burst in `createExplosion` (App.tsx lines 196-205);
the triple `r` carries the three Math.random() draws of that particle. -/
noncomputable def mkParticle (x y : ℝ) (r : ℝ × ℝ × ℝ) : Particle :=
  ⟨x, y, (r.1 - 0.5) * 4, (r.2.1 - 0.5) * 4, 1, r.2.2 * 60 + 10⟩

/-- The explosion record pushed by `createExplosion` (App.tsx lines 186-193). -/
def mkExplosion (idv : ℕ) (x y : ℝ) : Explosion :=
  ⟨idv, x, y, 0, EXPLOSION_RADIUS, EXPLOSION_DURATION⟩

/-- The fifteen-particle burst of `createExplosion`. -/
noncomputable def burstParticles (x y : ℝ) (rs : ℕ → ℝ × ℝ × ℝ) : List Particle :=
  (List.range 15).map (fun i => mkParticle x y (rs i))

/-- `createExplosion` (App.tsx lines 185-206) as a state transformer, for the
call sites where the pushed explosion lands in a list that survives the
current phase (the missile arrival phase). -/
noncomputable def createExplosion (x y : ℝ) (rs : ℕ → ℝ × ℝ × ℝ)
    (s : GameState) : GameState :=
  { s with
      explosions := s.explosions ++ [mkExplosion s.nextId x y]
      nextId := s.nextId + 1
      particles := s.particles ++ burstParticles x y rs }

/-- Center of a building, as computed at the damage test (App.tsx 285-286). -/
noncomputable def buildingCenter (b : Building) : Point :=
  ⟨b.x + b.width / 2, b.y + b.height / 2⟩

/-- Per-building part of the impact damage loop (App.tsx lines 283-290). -/
noncomputable def destroyHit (p : Point) (b : Building) : Building :=
  if b.isDestroyed = false ∧ ptDist (buildingCenter b) p < 30 then
    { b with isDestroyed := true }
  else b

/-- The `buildingsRef.current.forEach` damage loop run on enemy impact. -/
noncomputable def destroyNear (p : Point) (bs : List Building) : List Building :=
  bs.map (destroyHit p)

/-- Remaining distance of a missile to its target (App.tsx lines 276-278). -/
noncomputable def missileDist (m : Missile) : ℝ :=
  Real.sqrt ((m.target.x - m.current.x) ^ 2 + (m.target.y - m.current.y) ^ 2)

/-- One movement step of a missile that has not arrived (App.tsx 297-300). -/
noncomputable def moveMissile (m : Missile) : Missile :=
  { m with
      current := ⟨m.current.x + (m.target.x - m.current.x) / missileDist m * m.speed,
                  m.current.y + (m.target.y - m.current.y) / missileDist m * m.speed⟩ }

/-- Body of the missile filter (App.tsx lines 275-313).  The accumulator
carries the state (whose `missiles` field collects the filter survivors) and
the count of `createExplosion` calls made so far in this phase, used to index
the particle-randomness oracle `pr`. -/
noncomputable def processMissile (pr : ℕ → ℕ → ℝ × ℝ × ℝ)
    (acc : GameState × ℕ) (m : Missile) : GameState × ℕ :=
  let s := acc.1
  if missileDist m < m.speed then
    let s1 := createExplosion m.target.x m.target.y (pr acc.2) s
    let s2 := if m.isEnemy = true then
        { s1 with buildings := destroyNear m.target s1.buildings }
      else s1
    (s2, acc.2 + 1)
  else
    ({ s with missiles := s.missiles ++ [moveMissile m] }, acc.2)

/-- The whole missile update pass: `missilesRef.current =
missilesRef.current.filter(...)`. -/
noncomputable def missilePhase (pr : ℕ → ℕ → ℝ × ℝ × ℝ) (s : GameState) :
    GameState × ℕ :=
  s.missiles.foldl (processMissile pr) ({ s with missiles := [] }, 0)

/-- Timer decrement and radius update of one explosion (App.tsx 317-319);
the source decrements first and computes the progress from the decremented
timer. -/
noncomputable def stepExplosionTimer (e : Explosion) : Explosion :=
  let t := e.timer - 1
  { e with
      timer := t
      radius := Real.sin ((1 - (t : ℝ) / (EXPLOSION_DURATION : ℝ)) * Real.pi) * e.maxRadius }

/-- Accumulator of the explosion phase.  `kept` is the filter result being
built; `pushed` records explosions pushed by `createExplosion` onto the array
being filtered, which the phase-ending reassignment discards; `k` indexes the
particle-randomness oracle. -/
structure ExpAcc where
  kept : List Explosion
  missiles : List Missile
  particles : List Particle
  score : ℤ
  nextId : ℕ
  pushed : List Explosion
  k : ℕ

/-- Body of the inner missile filter of the explosion phase (App.tsx
lines 321-331): an enemy missile strictly inside the blast radius is removed,
awards 20 points and triggers a `createExplosion` at its current position. -/
noncomputable def catchStep (pr : ℕ → ℕ → ℝ × ℝ × ℝ) (e : Explosion)
    (acc : ExpAcc) (m : Missile) : ExpAcc :=
  if m.isEnemy = true ∧ ptDist m.current ⟨e.x, e.y⟩ < e.radius then
    { acc with
        score := acc.score + 20
        pushed := acc.pushed ++ [mkExplosion acc.nextId m.current.x m.current.y]
        particles := acc.particles ++ burstParticles m.current.x m.current.y (pr acc.k)
        nextId := acc.nextId + 1
        k := acc.k + 1 }
  else { acc with missiles := acc.missiles ++ [m] }

/-- Body of the explosion filter (App.tsx lines 316-343): advance the timer
and radius, run the inner missile filter, keep the explosion while its
(decremented) timer is positive. -/
noncomputable def processExplosion (pr : ℕ → ℕ → ℝ × ℝ × ℝ)
    (acc : ExpAcc) (e : Explosion) : ExpAcc :=
  let e1 := stepExplosionTimer e
  let acc1 := acc.missiles.foldl (catchStep pr e1) { acc with missiles := [] }
  { acc1 with kept := acc1.kept ++ (if 0 < e1.timer then [e1] else []) }

/-- The whole explosion update pass.  The final record update mirrors the
reassignment `explosionsRef.current = <filter result>`: only `kept` survives,
`pushed` is dropped (see the file comment on Array.prototype.filter). -/
noncomputable def explosionPhase (pr : ℕ → ℕ → ℝ × ℝ × ℝ) (s : GameState) :
    GameState :=
  let acc := s.explosions.foldl (processExplosion pr)
    { kept := [], missiles := s.missiles, particles := s.particles,
      score := s.score, nextId := s.nextId, pushed := [], k := 0 }
  { s with
      explosions := acc.kept
      missiles := acc.missiles
      particles := acc.particles
      score := acc.score
      nextId := acc.nextId }

/-- One particle step (App.tsx lines 346-355). -/
noncomputable def stepParticle (p : Particle) : Particle :=
  { p with x := p.x + p.vx, y := p.y + p.vy, life := p.life - 0.02 }

noncomputable def particlePhase (s : GameState) : GameState :=
  { s with particles := (s.particles.map stepParticle).filter (fun p => decide (0 < p.life)) }

/-- Number of batteries still standing (App.tsx line 382). -/
def liveBatteryCount (bs : List Building) : ℕ :=
  (bs.filter (fun b => decide (b.type = BuildingType.battery ∧ b.isDestroyed = false))).length

/-- End-of-tick win/loss evaluation (App.tsx lines 378-386). -/
def checkPhase (score : ℤ) (bs : List Building) (ph : Phase) : Phase :=
  if TARGET_SCORE ≤ score then Phase.won
  else if liveBatteryCount bs = 0 then Phase.lost
  else ph

/-- Spawn cadence step (App.tsx lines 257-265).  The elapsed-time reference
is reset whenever the interval has elapsed, whether or not `spawnEnemy`
found an eligible target. -/
noncomputable def spawnStep (width : ℝ) (d : Difficulty) (time r1 r2 r3 : ℝ)
    (s : GameState) : GameState :=
  let baseSpawnRate := max 500 (2000 - (s.score : ℝ) / 100 * 200)
  let spawnRate := baseSpawnRate * spawnMult d
  if spawnRate < time - s.lastSpawn then
    { spawnEnemy width d r1 r2 r3 s with lastSpawn := time }
  else s

/-- One full tick of `update` (App.tsx lines 246-391).  When the help overlay
is open the tick returns immediately (line 252).  The win/loss evaluation at
the end reads the score committed at the start of the tick (the React render
closure), while it reads the buildings ref as mutated by this tick. -/
noncomputable def update (width : ℝ) (d : Difficulty) (showHelp : Bool)
    (time r1 r2 r3 : ℝ) (pr1 pr2 : ℕ → ℕ → ℝ × ℝ × ℝ) (s : GameState) :
    GameState :=
  if showHelp = true then s
  else
    let s1 := spawnStep width d time r1 r2 r3 s
    let s2 := (missilePhase pr1 s1).1
    let s3 := explosionPhase pr2 s2
    let s4 := particlePhase s3
    { s4 with phase := checkPhase s.score s4.buildings s4.phase }

/-- `fireMissile` (App.tsx lines 208-243): pick, among live batteries whose
side still has ammo, the one whose horizontal center is nearest the click;
strict improvement keeps the earlier battery on ties, `none` plays the role
of the initial `minDist = Infinity`. -/
noncomputable def pickBattery (a : Ammo) (targetX : ℝ)
    (acc : Option (Building × ℝ)) (b : Building) : Option (Building × ℝ) :=
  match b.batterySide with
  | none => acc
  | some sd =>
    if 0 < a.get sd then
      let dist := |b.x + b.width / 2 - targetX|
      match acc with
      | none => some (b, dist)
      | some (b0, d0) => if dist < d0 then some (b, dist) else some (b0, d0)
    else acc

noncomputable def bestBattery (bs : List Building) (a : Ammo) (targetX : ℝ) :
    Option (Building × ℝ) :=
  bs.foldl (pickBattery a targetX) none

/-- The `buildingsRef.current.filter(b => b.type === 'battery' && !b.isDestroyed)`
of `fireMissile`. -/
def liveBatteries (s : GameState) : List Building :=
  s.buildings.filter
    (fun b => decide (b.type = BuildingType.battery ∧ b.isDestroyed = false))

noncomputable def fireMissile (targetX targetY : ℝ) (showHelp : Bool)
    (s : GameState) : GameState :=
  if s.phase ≠ Phase.playing ∨ showHelp = true then s
  else
    let batteries := liveBatteries s
    if batteries.length = 0 then s
    else
      match bestBattery batteries s.ammo targetX with
      | none => s
      | some (b, _) =>
        match b.batterySide with
        | none => s
        | some sd =>
          { s with
              ammo := s.ammo.dec sd
              missiles := s.missiles ++
                [{ id := s.nextId
                   start := ⟨b.x + b.width / 2, b.y⟩
                   current := ⟨b.x + b.width / 2, b.y⟩
                   target := ⟨targetX, targetY⟩
                   speed := MISSILE_SPEED
                   isEnemy := false }]
              nextId := s.nextId + 1 }

/-- Entering the `playing` phase (the start and replay buttons followed by
the effect of App.tsx lines 393-397): full reset plus rebasing of the
spawn-time reference to the current clock. -/
noncomputable def startPlaying (width height now : ℝ) (s : GameState) : GameState :=
  { initGame width height s with phase := Phase.playing, lastSpawn := now }

/-- Re-run of the effect (App.tsx lines 393-405) triggered by any change of
the `update` callback identity, in particular by toggling the help overlay:
while the phase is `playing` it re-initializes the session and rebases the
spawn-time reference to the current clock. -/
noncomputable def resumeEffect (width height now : ℝ) (s : GameState) : GameState :=
  if s.phase = Phase.playing then
    { initGame width height s with lastSpawn := now }
  else s

/-- All session-state transitions the program can take: starting from the
menu, replaying from an end screen, one simulation tick, one fire action,
and one effect re-run. -/
inductive Step (width height : ℝ) (d : Difficulty) : GameState → GameState → Prop
  | start (now : ℝ) (s : GameState) :
      s.phase = Phase.menu → Step width height d s (startPlaying width height now s)
  | replay (now : ℝ) (s : GameState) :
      s.phase = Phase.won ∨ s.phase = Phase.lost →
      Step width height d s (startPlaying width height now s)
  | tick (showHelp : Bool) (time r1 r2 r3 : ℝ) (pr1 pr2 : ℕ → ℕ → ℝ × ℝ × ℝ)
      (s : GameState) :
      s.phase = Phase.playing →
      Step width height d s (update width d showHelp time r1 r2 r3 pr1 pr2 s)
  | fire (targetX targetY : ℝ) (showHelp : Bool) (s : GameState) :
      Step width height d s (fireMissile targetX targetY showHelp s)
  | effectRerun (now : ℝ) (s : GameState) :
      Step width height d s (resumeEffect width height now s)

/-! ### Frame lemmas for the tick phases -/

lemma spawnEnemy_frame (width : ℝ) (d : Difficulty) (r1 r2 r3 : ℝ) (s : GameState) :
    (spawnEnemy width d r1 r2 r3 s).phase = s.phase ∧
    (spawnEnemy width d r1 r2 r3 s).ammo = s.ammo ∧
    (spawnEnemy width d r1 r2 r3 s).score = s.score ∧
    (spawnEnemy width d r1 r2 r3 s).buildings = s.buildings ∧
    (spawnEnemy width d r1 r2 r3 s).explosions = s.explosions ∧
    (spawnEnemy width d r1 r2 r3 s).particles = s.particles := by
  simp only [spawnEnemy]
  split <;> exact ⟨rfl, rfl, rfl, rfl, rfl, rfl⟩

lemma spawnStep_frame (width : ℝ) (d : Difficulty) (time r1 r2 r3 : ℝ) (s : GameState) :
    (spawnStep width d time r1 r2 r3 s).phase = s.phase ∧
    (spawnStep width d time r1 r2 r3 s).ammo = s.ammo ∧
    (spawnStep width d time r1 r2 r3 s).score = s.score ∧
    (spawnStep width d time r1 r2 r3 s).buildings = s.buildings ∧
    (spawnStep width d time r1 r2 r3 s).explosions = s.explosions ∧
    (spawnStep width d time r1 r2 r3 s).particles = s.particles := by
  simp only [spawnStep]
  split
  · exact (spawnEnemy_frame width d r1 r2 r3 s)
  · exact ⟨rfl, rfl, rfl, rfl, rfl, rfl⟩

lemma processMissile_frame (pr : ℕ → ℕ → ℝ × ℝ × ℝ) (acc : GameState × ℕ) (m : Missile) :
    (processMissile pr acc m).1.phase = acc.1.phase ∧
    (processMissile pr acc m).1.ammo = acc.1.ammo ∧
    (processMissile pr acc m).1.score = acc.1.score ∧
    (processMissile pr acc m).1.lastSpawn = acc.1.lastSpawn := by
  unfold processMissile createExplosion
  split
  · split <;> exact ⟨rfl, rfl, rfl, rfl⟩
  · exact ⟨rfl, rfl, rfl, rfl⟩

lemma missileFold_frame (pr : ℕ → ℕ → ℝ × ℝ × ℝ) (ms : List Missile) :
    ∀ acc : GameState × ℕ,
      (ms.foldl (processMissile pr) acc).1.phase = acc.1.phase ∧
      (ms.foldl (processMissile pr) acc).1.ammo = acc.1.ammo ∧
      (ms.foldl (processMissile pr) acc).1.score = acc.1.score ∧
      (ms.foldl (processMissile pr) acc).1.lastSpawn = acc.1.lastSpawn := by
  induction ms with
  | nil => exact fun acc => ⟨rfl, rfl, rfl, rfl⟩
  | cons m rest ih =>
    intro acc
    have h1 := processMissile_frame pr acc m
    have h2 := ih (processMissile pr acc m)
    simp only [List.foldl_cons]
    exact ⟨h2.1.trans h1.1, h2.2.1.trans h1.2.1, h2.2.2.1.trans h1.2.2.1,
      h2.2.2.2.trans h1.2.2.2⟩

lemma missilePhase_frame (pr : ℕ → ℕ → ℝ × ℝ × ℝ) (s : GameState) :
    (missilePhase pr s).1.phase = s.phase ∧
    (missilePhase pr s).1.ammo = s.ammo ∧
    (missilePhase pr s).1.score = s.score ∧
    (missilePhase pr s).1.lastSpawn = s.lastSpawn :=
  missileFold_frame pr s.missiles ({ s with missiles := [] }, 0)

lemma explosionPhase_frame (pr : ℕ → ℕ → ℝ × ℝ × ℝ) (s : GameState) :
    (explosionPhase pr s).phase = s.phase ∧
    (explosionPhase pr s).ammo = s.ammo ∧
    (explosionPhase pr s).buildings = s.buildings ∧
    (explosionPhase pr s).lastSpawn = s.lastSpawn :=
  ⟨rfl, rfl, rfl, rfl⟩

lemma particlePhase_frame (s : GameState) :
    (particlePhase s).phase = s.phase ∧
    (particlePhase s).ammo = s.ammo ∧
    (particlePhase s).score = s.score ∧
    (particlePhase s).buildings = s.buildings ∧
    (particlePhase s).missiles = s.missiles ∧
    (particlePhase s).explosions = s.explosions ∧
    (particlePhase s).lastSpawn = s.lastSpawn :=
  ⟨rfl, rfl, rfl, rfl, rfl, rfl, rfl⟩

lemma update_false_eq (width : ℝ) (d : Difficulty) (time r1 r2 r3 : ℝ)
    (pr1 pr2 : ℕ → ℕ → ℝ × ℝ × ℝ) (s : GameState) :
    update width d false time r1 r2 r3 pr1 pr2 s =
      { particlePhase (explosionPhase pr2 (missilePhase pr1 (spawnStep width d time r1 r2 r3 s)).1) with
          phase := checkPhase s.score
            (particlePhase (explosionPhase pr2
              (missilePhase pr1 (spawnStep width d time r1 r2 r3 s)).1)).buildings
            (particlePhase (explosionPhase pr2
              (missilePhase pr1 (spawnStep width d time r1 r2 r3 s)).1)).phase } := by
  simp only [update, Bool.false_eq_true, if_false]

lemma update_phase_char (width : ℝ) (d : Difficulty) (time r1 r2 r3 : ℝ)
    (pr1 pr2 : ℕ → ℕ → ℝ × ℝ × ℝ) (s : GameState) :
    (update width d false time r1 r2 r3 pr1 pr2 s).phase =
      checkPhase s.score (update width d false time r1 r2 r3 pr1 pr2 s).buildings s.phase := by
  have hs1 := spawnStep_frame width d time r1 r2 r3 s
  have hs2 := missilePhase_frame pr1 (spawnStep width d time r1 r2 r3 s)
  have hs3 := explosionPhase_frame pr2 (missilePhase pr1 (spawnStep width d time r1 r2 r3 s)).1
  have hs4 := particlePhase_frame (explosionPhase pr2 (missilePhase pr1 (spawnStep width d time r1 r2 r3 s)).1)
  rw [update_false_eq]
  show checkPhase s.score _ _ = checkPhase s.score _ _
  rw [hs4.1, hs3.1, hs2.1, hs1.1]

lemma update_ammo (width : ℝ) (d : Difficulty) (sh : Bool) (time r1 r2 r3 : ℝ)
    (pr1 pr2 : ℕ → ℕ → ℝ × ℝ × ℝ) (s : GameState) :
    (update width d sh time r1 r2 r3 pr1 pr2 s).ammo = s.ammo := by
  have hs1 := spawnStep_frame width d time r1 r2 r3 s
  have hs2 := missilePhase_frame pr1 (spawnStep width d time r1 r2 r3 s)
  have hs3 := explosionPhase_frame pr2 (missilePhase pr1 (spawnStep width d time r1 r2 r3 s)).1
  have hs4 := particlePhase_frame (explosionPhase pr2 (missilePhase pr1 (spawnStep width d time r1 r2 r3 s)).1)
  cases sh with
  | true => rfl
  | false =>
    rw [update_false_eq]
    exact hs4.2.1.trans (hs3.2.1.trans (hs2.2.1.trans hs1.2.1))

lemma fireMissile_phase (tx ty : ℝ) (sh : Bool) (s : GameState) :
    (fireMissile tx ty sh s).phase = s.phase := by
  simp only [fireMissile]
  split
  · rfl
  · split
    · rfl
    · split
      · rfl
      · split
        · rfl
        · rfl

lemma startPlaying_phase (width height now : ℝ) (s : GameState) :
    (startPlaying width height now s).phase = Phase.playing := rfl

lemma resumeEffect_phase (width height now : ℝ) (s : GameState) :
    (resumeEffect width height now s).phase = s.phase := by
  unfold resumeEffect
  split <;> rfl

lemma checkPhase_won_iff (score : ℤ) (bs : List Building) :
    checkPhase score bs Phase.playing = Phase.won ↔ TARGET_SCORE ≤ score := by
  unfold checkPhase
  split_ifs with h1 h2 <;> simp_all

lemma checkPhase_lost_iff (score : ℤ) (bs : List Building) :
    checkPhase score bs Phase.playing = Phase.lost ↔
      (score < TARGET_SCORE ∧ liveBatteryCount bs = 0) := by
  unfold checkPhase
  split_ifs with h1 h2
  · exact iff_of_false (by decide) (fun h => (lt_iff_not_le.mp h.1) h1)
  · exact iff_of_true rfl ⟨lt_iff_not_le.mpr h1, h2⟩
  · exact iff_of_false (by decide) (fun h => h2 h.2)

lemma checkPhase_playing_iff (score : ℤ) (bs : List Building) :
    checkPhase score bs Phase.playing = Phase.playing ↔
      (score < TARGET_SCORE ∧ liveBatteryCount bs ≠ 0) := by
  unfold checkPhase
  split_ifs with h1 h2
  · exact iff_of_false (by decide) (fun h => (lt_iff_not_le.mp h.1) h1)
  · exact iff_of_false (by decide) (fun h => h.2 h2)
  · exact iff_of_true rfl ⟨lt_iff_not_le.mpr h1, h2⟩

lemma step_phase (width height : ℝ) (d : Difficulty) (t t' : GameState)
    (hstep : Step width height d t t') :
    t'.phase = t.phase ∨
    (t.phase = Phase.menu ∧ t'.phase = Phase.playing) ∨
    (t.phase = Phase.won ∧ t'.phase = Phase.playing) ∨
    (t.phase = Phase.lost ∧ t'.phase = Phase.playing) ∨
    (t.phase = Phase.playing ∧ t'.phase = Phase.won) ∨
    (t.phase = Phase.playing ∧ t'.phase = Phase.lost) := by
  cases hstep with
  | start now _ hmenu => exact Or.inr (Or.inl ⟨hmenu, rfl⟩)
  | replay now _ hend =>
    rcases hend with h | h
    · exact Or.inr (Or.inr (Or.inl ⟨h, rfl⟩))
    · exact Or.inr (Or.inr (Or.inr (Or.inl ⟨h, rfl⟩)))
  | tick sh time r1 r2 r3 pr1 pr2 _ hplay =>
    cases sh with
    | true => left; simp [update]
    | false =>
      have hchar := update_phase_char width d time r1 r2 r3 pr1 pr2 t
      rw [hplay] at hchar
      rw [hchar]
      unfold checkPhase
      split_ifs with h1 h2
      · right; right; right; right; left; exact ⟨hplay, rfl⟩
      · right; right; right; right; right; exact ⟨hplay, rfl⟩
      · left; exact hplay.symm
  | fire tx ty sh _ => exact Or.inl (fireMissile_phase tx ty sh t)
  | effectRerun now _ => exact Or.inl (resumeEffect_phase width height now t)

/-- C1: while the phase is `playing`, a tick's end-of-tick evaluation yields
`won` exactly when the score (as committed at the start of the tick) has
reached 1000, independently of battery survival; otherwise `lost` exactly
when no battery structure is left standing; otherwise the phase stays
`playing`.  Moreover every reachable transition of the session state machine
is one of Menu to Playing, Won or Lost to Playing, and Playing to Won or
Lost (any other step leaves the phase unchanged). -/
theorem phase_transition_exactness (width height time r1 r2 r3 : ℝ)
    (d : Difficulty) (pr1 pr2 : ℕ → ℕ → ℝ × ℝ × ℝ) (s : GameState)
    (hp : s.phase = Phase.playing) :
    ((update width d false time r1 r2 r3 pr1 pr2 s).phase = Phase.won ↔
        TARGET_SCORE ≤ s.score) ∧
    ((update width d false time r1 r2 r3 pr1 pr2 s).phase = Phase.lost ↔
        (s.score < TARGET_SCORE ∧
          liveBatteryCount (update width d false time r1 r2 r3 pr1 pr2 s).buildings = 0)) ∧
    ((update width d false time r1 r2 r3 pr1 pr2 s).phase = Phase.playing ↔
        (s.score < TARGET_SCORE ∧
          liveBatteryCount (update width d false time r1 r2 r3 pr1 pr2 s).buildings ≠ 0)) ∧
    (∀ t t' : GameState, Step width height d t t' →
        t'.phase = t.phase ∨
        (t.phase = Phase.menu ∧ t'.phase = Phase.playing) ∨
        (t.phase = Phase.won ∧ t'.phase = Phase.playing) ∨
        (t.phase = Phase.lost ∧ t'.phase = Phase.playing) ∨
        (t.phase = Phase.playing ∧ t'.phase = Phase.won) ∨
        (t.phase = Phase.playing ∧ t'.phase = Phase.lost)) := by
  have hchar := update_phase_char width d time r1 r2 r3 pr1 pr2 s
  rw [hp] at hchar
  rw [hchar]
  exact ⟨checkPhase_won_iff _ _, checkPhase_lost_iff _ _, checkPhase_playing_iff _ _,
    fun t t' h => step_phase width height d t t' h⟩

/-- Concrete session state used by several witnesses: phase `playing`,
score 1000, initial ammo, empty collections. -/
def witState : GameState :=
  ⟨Phase.playing, 1000, ⟨20, 40, 20⟩, [], [], [], [], 0, 0⟩

/-- Witness for C1 at a concrete winning state. -/
theorem phase_transition_exactness_witness :
    witState.phase = Phase.playing ∧
    ((update 800 Difficulty.medium false 0 0 0 0 (fun _ _ => (0, 0, 0))
        (fun _ _ => (0, 0, 0)) witState).phase = Phase.won ↔
      TARGET_SCORE ≤ witState.score) :=
  ⟨rfl, (phase_transition_exactness 800 600 0 0 0 0 Difficulty.medium
    (fun _ _ => (0, 0, 0)) (fun _ _ => (0, 0, 0)) witState rfl).1⟩

/-- C5: entering the `playing` phase resets, for any prior session state,
to the same deterministic initial configuration: score 0, ammo 20/40/20,
empty entity collections, and exactly 3 batteries plus 6 cities, all
standing, rebuilt purely from the play-area dimensions. -/
theorem replay_resets_initial_config (width height now : ℝ) (s : GameState) :
    (startPlaying width height now s).phase = Phase.playing ∧
    (startPlaying width height now s).score = 0 ∧
    (startPlaying width height now s).ammo = ⟨20, 40, 20⟩ ∧
    (startPlaying width height now s).missiles = [] ∧
    (startPlaying width height now s).explosions = [] ∧
    (startPlaying width height now s).particles = [] ∧
    ((startPlaying width height now s).buildings.filter
        (fun b => decide (b.type = BuildingType.battery))).length = 3 ∧
    ((startPlaying width height now s).buildings.filter
        (fun b => decide (b.type = BuildingType.city))).length = 6 ∧
    (∀ b ∈ (startPlaying width height now s).buildings, b.isDestroyed = false) ∧
    (startPlaying width height now s).buildings = initBuildings width height := by
  refine ⟨rfl, rfl, rfl, rfl, rfl, rfl, ?_, ?_, ?_, rfl⟩
  · show ((initBuildings width height).filter _).length = 3
    simp [initBuildings, List.filter_append, List.filter_map, Function.comp,
      List.filter_cons, List.range_succ]
  · show ((initBuildings width height).filter _).length = 6
    simp [initBuildings, List.filter_append, List.filter_map, Function.comp,
      List.filter_cons, List.range_succ]
  · intro b hb
    simp only [startPlaying, initGame, initBuildings, List.mem_append, List.mem_cons,
      List.not_mem_nil, or_false, List.mem_map, List.mem_range] at hb
    rcases hb with (rfl | rfl | rfl) | ⟨i, -, rfl⟩ <;> rfl

/-! ### Battery selection: properties of the fold in `fireMissile` -/

/-- A battery can shoot when its side's ammo pool is positive (the
`ammo[side] > 0` test; a structure without a side never passes it). -/
def qualifies (a : Ammo) (b : Building) : Prop :=
  ∃ sd, b.batterySide = some sd ∧ 0 < a.get sd

/-- Horizontal distance from a building's center to the aim point. -/
noncomputable def bdist (targetX : ℝ) (b : Building) : ℝ :=
  |b.x + b.width / 2 - targetX|

lemma pickBattery_not_qual (a : Ammo) (tx : ℝ) (acc : Option (Building × ℝ))
    (b : Building) (h : ¬ qualifies a b) : pickBattery a tx acc b = acc := by
  rcases hsd : b.batterySide with _ | sd
  · simp [pickBattery, hsd]
  · simp only [pickBattery, hsd]
    rw [if_neg]
    exact fun hpos => h ⟨sd, hsd, hpos⟩

lemma pickBattery_cases (a : Ammo) (tx : ℝ) (acc : Option (Building × ℝ))
    (c : Building) :
    (pickBattery a tx acc c = acc ∧
      (qualifies a c → ∃ b0 d0, acc = some (b0, d0) ∧ d0 ≤ bdist tx c)) ∨
    (qualifies a c ∧ pickBattery a tx acc c = some (c, bdist tx c) ∧
      (∀ b0 d0, acc = some (b0, d0) → bdist tx c ≤ d0)) := by
  by_cases hq : qualifies a c
  · obtain ⟨sd, hsd, hpos⟩ := hq
    rcases acc with _ | ⟨b0, d0⟩
    · right
      refine ⟨⟨sd, hsd, hpos⟩, ?_, ?_⟩
      · simp only [pickBattery, hsd, bdist]
        rw [if_pos hpos]
      · intro b0 d0 h0
        cases h0
    · by_cases hlt : bdist tx c < d0
      · right
        refine ⟨⟨sd, hsd, hpos⟩, ?_, ?_⟩
        · simp only [pickBattery, hsd, bdist]
          rw [if_pos hpos]
          rw [if_pos (by simpa [bdist] using hlt)]
        · intro b1 d1 h1
          injection h1 with h2
          injection h2 with hb hd
          rw [← hd]
          exact le_of_lt hlt
      · left
        refine ⟨?_, fun _ => ⟨b0, d0, rfl, le_of_not_lt hlt⟩⟩
        simp only [pickBattery, hsd, bdist]
        rw [if_pos hpos]
        rw [if_neg (by simpa [bdist] using hlt)]
  · exact Or.inl ⟨pickBattery_not_qual a tx acc c hq, fun h => absurd h hq⟩

lemma Ammo.get_dec (a : Ammo) (sd sd' : Side) :
    (a.dec sd).get sd' = if sd' = sd then a.get sd - 1 else a.get sd' := by
  cases sd <;> cases sd' <;> simp [Ammo.get, Ammo.dec]

lemma foldPick_eq_none (a : Ammo) (tx : ℝ) :
    ∀ bs : List Building, (∀ b ∈ bs, ¬ qualifies a b) →
      bs.foldl (pickBattery a tx) none = none := by
  intro bs
  induction bs with
  | nil => exact fun _ => rfl
  | cons c rest ih =>
    intro h
    rw [List.foldl_cons, pickBattery_not_qual a tx none c (h c (List.mem_cons_self c rest))]
    exact ih (fun b hb => h b (List.mem_cons_of_mem c hb))

lemma foldPick_spec (a : Ammo) (tx : ℝ) :
    ∀ (bs : List Building) (acc : Option (Building × ℝ)) (b : Building) (dv : ℝ),
      bs.foldl (pickBattery a tx) acc = some (b, dv) →
      (acc = some (b, dv) ∨ (b ∈ bs ∧ qualifies a b ∧ dv = bdist tx b)) ∧
      (∀ b' ∈ bs, qualifies a b' → dv ≤ bdist tx b') ∧
      (∀ b0 d0, acc = some (b0, d0) → dv ≤ d0) := by
  intro bs
  induction bs with
  | nil =>
    intro acc b dv h
    refine ⟨Or.inl h, fun b' hb' => absurd hb' (List.not_mem_nil b'), ?_⟩
    intro b0 d0 h0
    rw [h0] at h
    injection h with h2
    injection h2 with hb hd
    rw [hd]
  | cons c rest ih =>
    intro acc b dv h
    rw [List.foldl_cons] at h
    obtain ⟨hmem, hmin, hmono⟩ := ih (pickBattery a tx acc c) b dv h
    rcases pickBattery_cases a tx acc c with ⟨hpe, hex⟩ | ⟨hq, hpe, hbound⟩
    · rw [hpe] at hmem hmono
      refine ⟨?_, ?_, hmono⟩
      · rcases hmem with hup | hin
        · exact Or.inl hup
        · exact Or.inr ⟨List.mem_cons_of_mem c hin.1, hin.2⟩
      · intro b' hb' hq'
        rcases List.mem_cons.mp hb' with rfl | hb'
        · obtain ⟨b0, d0, hacc, hb0⟩ := hex hq'
          exact le_trans (hmono b0 d0 hacc) hb0
        · exact hmin b' hb' hq'
    · rw [hpe] at hmem hmono
      have hdc : dv ≤ bdist tx c := hmono c (bdist tx c) rfl
      refine ⟨?_, ?_, ?_⟩
      · rcases hmem with hup | hin
        · injection hup with h2
          injection h2 with hb hd
          subst hb
          exact Or.inr ⟨List.mem_cons_self c rest, hq, hd.symm⟩
        · exact Or.inr ⟨List.mem_cons_of_mem c hin.1, hin.2⟩
      · intro b' hb' hq'
        rcases List.mem_cons.mp hb' with rfl | hb'
        · exact hdc
        · exact hmin b' hb' hq'
      · intro b0 d0 hacc
        exact le_trans hdc (hbound b0 d0 hacc)

lemma mem_liveBatteries (s : GameState) (b : Building) (hb : b ∈ liveBatteries s) :
    b ∈ s.buildings ∧ b.type = BuildingType.battery ∧ b.isDestroyed = false := by
  have h := List.mem_filter.mp hb
  exact ⟨h.1, (decide_eq_true_eq.mp h.2).1, (decide_eq_true_eq.mp h.2).2⟩

/-- C4: `fire` is a no-op outside the `playing` phase and when no standing
battery has ammo; otherwise it selects a standing battery whose side has
positive ammo and whose horizontal center is nearest the aim point,
decrements exactly that side's ammo by one, and enqueues one player
projectile from the battery's center-top toward the aim point.  Ammo never
becomes negative. -/
theorem fire_selection_and_noop (tx ty : ℝ) (s : GameState) :
    (s.phase ≠ Phase.playing → ∀ sh, fireMissile tx ty sh s = s) ∧
    ((∀ b ∈ liveBatteries s, ¬ qualifies s.ammo b) → fireMissile tx ty false s = s) ∧
    (∀ b dv, bestBattery (liveBatteries s) s.ammo tx = some (b, dv) →
      s.phase = Phase.playing →
      b ∈ s.buildings ∧ b.type = BuildingType.battery ∧ b.isDestroyed = false ∧
      (∃ sd, b.batterySide = some sd ∧ 0 < s.ammo.get sd ∧
        fireMissile tx ty false s =
          { s with
              ammo := s.ammo.dec sd
              missiles := s.missiles ++
                [{ id := s.nextId
                   start := ⟨b.x + b.width / 2, b.y⟩
                   current := ⟨b.x + b.width / 2, b.y⟩
                   target := ⟨tx, ty⟩
                   speed := MISSILE_SPEED
                   isEnemy := false }]
              nextId := s.nextId + 1 } ∧
        (fireMissile tx ty false s).ammo.get sd = s.ammo.get sd - 1 ∧
        (∀ sd', sd' ≠ sd → (fireMissile tx ty false s).ammo.get sd' = s.ammo.get sd')) ∧
      (∀ b' ∈ liveBatteries s, qualifies s.ammo b' → bdist tx b ≤ bdist tx b')) ∧
    ((∀ sd, 0 ≤ s.ammo.get sd) → ∀ sh sd, 0 ≤ (fireMissile tx ty sh s).ammo.get sd) := by
  refine ⟨?_, ?_, ?_, ?_⟩
  · intro hph sh
    simp [fireMissile, hph]
  · intro hnq
    by_cases hph : s.phase = Phase.playing
    · by_cases hlen : (liveBatteries s).length = 0
      · simp [fireMissile, hph, hlen]
      · have hnone := foldPick_eq_none s.ammo tx (liveBatteries s) hnq
        simp [fireMissile, hph, hlen, bestBattery, hnone]
    · simp [fireMissile, hph]
  · intro b dv hbb hph
    obtain ⟨hmem, hmin, -⟩ := foldPick_spec s.ammo tx (liveBatteries s) none b dv hbb
    rcases hmem with hup | ⟨hin, ⟨sd, hsd, hpos⟩, hdv⟩
    · exact absurd hup (by simp)
    · obtain ⟨hmem', hty, hnd⟩ := mem_liveBatteries s b hin
      have hlen : ¬ (liveBatteries s).length = 0 := by
        intro h0
        rw [List.length_eq_zero] at h0
        rw [h0] at hin
        exact absurd hin (List.not_mem_nil b)
      have hfire : fireMissile tx ty false s =
          { s with
              ammo := s.ammo.dec sd
              missiles := s.missiles ++
                [{ id := s.nextId
                   start := ⟨b.x + b.width / 2, b.y⟩
                   current := ⟨b.x + b.width / 2, b.y⟩
                   target := ⟨tx, ty⟩
                   speed := MISSILE_SPEED
                   isEnemy := false }]
              nextId := s.nextId + 1 } := by
        simp [fireMissile, hph, hlen, hbb, hsd]
      refine ⟨hmem', hty, hnd, ⟨sd, hsd, hpos, hfire, ?_, ?_⟩, ?_⟩
      · rw [hfire]
        show (s.ammo.dec sd).get sd = s.ammo.get sd - 1
        rw [Ammo.get_dec]
        simp
      · intro sd' hne
        rw [hfire]
        show (s.ammo.dec sd).get sd' = s.ammo.get sd'
        rw [Ammo.get_dec]
        simp [hne]
      · intro b' hb' hq'
        rw [hdv] at hmin
        exact hmin b' hb' hq'
  · intro hnn sh sd
    by_cases hc : s.phase ≠ Phase.playing ∨ sh = true
    · have : fireMissile tx ty sh s = s := by
        simp only [fireMissile]
        rw [if_pos hc]
      rw [this]
      exact hnn sd
    · push_neg at hc
      obtain ⟨hph', hsh⟩ := hc
      by_cases hlen : (liveBatteries s).length = 0
      · have : fireMissile tx ty sh s = s := by
          cases sh
          · simp [fireMissile, hph', hlen]
          · exact absurd rfl hsh
        rw [this]
        exact hnn sd
      · rcases hbb : bestBattery (liveBatteries s) s.ammo tx with _ | ⟨b, dv⟩
        · have : fireMissile tx ty sh s = s := by
            cases sh
            · simp [fireMissile, hph', hlen, bestBattery] at hbb ⊢
              simp [hbb]
            · exact absurd rfl hsh
          rw [this]
          exact hnn sd
        · obtain ⟨hmem, -, -⟩ := foldPick_spec s.ammo tx (liveBatteries s) none b dv hbb
          rcases hmem with hup | ⟨hin, ⟨sd0, hsd0, hpos⟩, hdv⟩
          · exact absurd hup (by simp)
          · have : fireMissile tx ty sh s =
                { s with
                    ammo := s.ammo.dec sd0
                    missiles := s.missiles ++
                      [{ id := s.nextId
                         start := ⟨b.x + b.width / 2, b.y⟩
                         current := ⟨b.x + b.width / 2, b.y⟩
                         target := ⟨tx, ty⟩
                         speed := MISSILE_SPEED
                         isEnemy := false }]
                    nextId := s.nextId + 1 } := by
              cases sh
              · simp [fireMissile, hph', hlen, hbb, hsd0]
              · exact absurd rfl hsh
            rw [this]
            show 0 ≤ (s.ammo.dec sd0).get sd
            rw [Ammo.get_dec]
            by_cases he : sd = sd0
            · rw [if_pos he]
              omega
            · rw [if_neg he]
              exact hnn sd

/-- Concrete state for the fire witnesses: one live left battery, one ammo. -/
def fireState : GameState :=
  ⟨Phase.playing, 0, ⟨1, 0, 0⟩, [], [],
    [⟨0, 0, 0, 10, 10, false, BuildingType.battery, some Side.left⟩], [], 5, 0⟩

/-- Witness for C4: ammo non-negativity is preserved by firing at a concrete
state. -/
theorem fire_selection_and_noop_witness :
    (∀ sd, 0 ≤ fireState.ammo.get sd) ∧
    (∀ sh sd, 0 ≤ (fireMissile 3 4 sh fireState).ammo.get sd) :=
  ⟨fun sd => by cases sd <;> norm_num [fireState, Ammo.get],
   (fire_selection_and_noop 3 4 fireState).2.2.2
     (fun sd => by cases sd <;> norm_num [fireState, Ammo.get])⟩

/-- C10: marking a building destroyed changes only its `isDestroyed` flag
(in particular no ammo counter), the tick never changes ammo at all, and if
every building carrying a given side is destroyed then firing cannot change
that side's ammo pool (fire selects among standing batteries only). -/
theorem destroyed_battery_ammo_retained (p : Point) (b : Building)
    (width : ℝ) (d : Difficulty) (sh : Bool) (time r1 r2 r3 : ℝ)
    (pr1 pr2 : ℕ → ℕ → ℝ × ℝ × ℝ) (s : GameState) :
    ((destroyHit p b).id = b.id ∧ (destroyHit p b).x = b.x ∧
     (destroyHit p b).y = b.y ∧ (destroyHit p b).width = b.width ∧
     (destroyHit p b).height = b.height ∧ (destroyHit p b).type = b.type ∧
     (destroyHit p b).batterySide = b.batterySide) ∧
    (update width d sh time r1 r2 r3 pr1 pr2 s).ammo = s.ammo ∧
    (∀ tx ty sd, (∀ b' ∈ s.buildings, b'.batterySide = some sd → b'.isDestroyed = true) →
      (fireMissile tx ty sh s).ammo.get sd = s.ammo.get sd) := by
  refine ⟨?_, update_ammo width d sh time r1 r2 r3 pr1 pr2 s, ?_⟩
  · unfold destroyHit
    split <;> exact ⟨rfl, rfl, rfl, rfl, rfl, rfl, rfl⟩
  · intro tx ty sd hdes
    by_cases hc : s.phase ≠ Phase.playing ∨ sh = true
    · have : fireMissile tx ty sh s = s := by
        simp only [fireMissile]
        rw [if_pos hc]
      rw [this]
    · push_neg at hc
      obtain ⟨hph', hsh⟩ := hc
      by_cases hlen : (liveBatteries s).length = 0
      · have : fireMissile tx ty sh s = s := by
          cases sh
          · simp [fireMissile, hph', hlen]
          · exact absurd rfl hsh
        rw [this]
      · rcases hbb : bestBattery (liveBatteries s) s.ammo tx with _ | ⟨b', dv⟩
        · have : fireMissile tx ty sh s = s := by
            cases sh
            · simp [fireMissile, hph', hlen, bestBattery] at hbb ⊢
              simp [hbb]
            · exact absurd rfl hsh
          rw [this]
        · obtain ⟨hmem, -, -⟩ := foldPick_spec s.ammo tx (liveBatteries s) none b' dv hbb
          rcases hmem with hup | ⟨hin, ⟨sd0, hsd0, hpos⟩, hdv⟩
          · exact absurd hup (by simp)
          · obtain ⟨hmem', hty, hnd⟩ := mem_liveBatteries s b' hin
            have hne : sd0 ≠ sd := by
              intro he
              rw [he] at hsd0
              have := hdes b' hmem' hsd0
              rw [this] at hnd
              cases hnd
            have : fireMissile tx ty sh s =
                { s with
                    ammo := s.ammo.dec sd0
                    missiles := s.missiles ++
                      [{ id := s.nextId
                         start := ⟨b'.x + b'.width / 2, b'.y⟩
                         current := ⟨b'.x + b'.width / 2, b'.y⟩
                         target := ⟨tx, ty⟩
                         speed := MISSILE_SPEED
                         isEnemy := false }]
                    nextId := s.nextId + 1 } := by
              cases sh
              · simp [fireMissile, hph', hlen, hbb, hsd0]
              · exact absurd rfl hsh
            rw [this]
            show (s.ammo.dec sd0).get sd = s.ammo.get sd
            rw [Ammo.get_dec]
            rw [if_neg (fun h => hne h.symm)]

/-- Witness for C10 at a concrete state whose left battery is destroyed. -/
theorem destroyed_battery_ammo_retained_witness :
    (∀ b' ∈ (⟨Phase.playing, 0, ⟨7, 1, 1⟩, [], [],
        [⟨0, 0, 0, 10, 10, true, BuildingType.battery, some Side.left⟩], [], 0, 0⟩ :
          GameState).buildings,
      b'.batterySide = some Side.left → b'.isDestroyed = true) ∧
    (fireMissile 5 6 false (⟨Phase.playing, 0, ⟨7, 1, 1⟩, [], [],
        [⟨0, 0, 0, 10, 10, true, BuildingType.battery, some Side.left⟩], [], 0, 0⟩ :
          GameState)).ammo.get Side.left =
      (⟨Phase.playing, 0, ⟨7, 1, 1⟩, [], [],
        [⟨0, 0, 0, 10, 10, true, BuildingType.battery, some Side.left⟩], [], 0, 0⟩ :
          GameState).ammo.get Side.left :=
  ⟨fun b' hb' _ => by
      rcases List.mem_singleton.mp hb' with rfl
      rfl,
   (destroyed_battery_ammo_retained ⟨0, 0⟩ dummyBuilding 800 Difficulty.medium false
      0 0 0 0 (fun _ _ => (0, 0, 0)) (fun _ _ => (0, 0, 0)) _).2.2 5 6 Side.left
      (fun b' hb' _ => by
        rcases List.mem_singleton.mp hb' with rfl
        rfl)⟩

/-- Witness for C5 at concrete play-area dimensions. -/
theorem replay_resets_initial_config_witness :
    (startPlaying 800 600 0 witState).ammo = ⟨20, 40, 20⟩ ∧
    ∀ b ∈ (startPlaying 800 600 0 witState).buildings, b.isDestroyed = false := by
  obtain ⟨-, -, h3, -, -, -, -, -, h9, -⟩ := replay_resets_initial_config 800 600 0 witState
  exact ⟨h3, h9⟩

/-! ### Missile arrival semantics (C3) -/

lemma destroyHit_isDestroyed (p : Point) (b : Building) :
    (destroyHit p b).isDestroyed = true ↔
      (b.isDestroyed = true ∨ ptDist (buildingCenter b) p < 30) := by
  unfold destroyHit
  split_ifs with h
  · simp [h.2]
  · cases hb : b.isDestroyed with
    | false =>
      simp only [hb, true_and, not_lt] at h
      simp only [hb, Bool.false_eq_true, false_or]
      exact iff_of_false (fun hh => hh) (not_lt.mpr h)
    | true => simp [hb]

lemma burstParticles_length (x y : ℝ) (rs : ℕ → ℝ × ℝ × ℝ) :
    (burstParticles x y rs).length = 15 := by
  simp [burstParticles]

lemma moveMissile_dist (m : Missile) (hs : 0 < m.speed)
    (hnd : ¬ missileDist m < m.speed) :
    ptDist (moveMissile m).current m.current = m.speed := by
  have hD : 0 < missileDist m := lt_of_lt_of_le hs (le_of_not_lt hnd)
  have hne : missileDist m ≠ 0 := ne_of_gt hD
  have hsum : (m.target.x - m.current.x) ^ 2 + (m.target.y - m.current.y) ^ 2
      = missileDist m ^ 2 := by
    rw [missileDist, Real.sq_sqrt (by positivity)]
  have h1 : (m.current.x + (m.target.x - m.current.x) / missileDist m * m.speed
        - m.current.x) ^ 2
      + (m.current.y + (m.target.y - m.current.y) / missileDist m * m.speed
        - m.current.y) ^ 2 = m.speed ^ 2 := by
    have h2 : (m.current.x + (m.target.x - m.current.x) / missileDist m * m.speed
          - m.current.x) ^ 2
        + (m.current.y + (m.target.y - m.current.y) / missileDist m * m.speed
          - m.current.y) ^ 2
        = ((m.target.x - m.current.x) ^ 2 + (m.target.y - m.current.y) ^ 2)
          * m.speed ^ 2 / missileDist m ^ 2 := by
      ring
    rw [h2, hsum, mul_comm, mul_div_assoc, div_self (pow_ne_zero 2 hne), mul_one]
  show Real.sqrt _ = m.speed
  rw [show (moveMissile m).current.x = m.current.x
        + (m.target.x - m.current.x) / missileDist m * m.speed from rfl,
      show (moveMissile m).current.y = m.current.y
        + (m.target.y - m.current.y) / missileDist m * m.speed from rfl]
  rw [h1]
  exact Real.sqrt_sq (le_of_lt hs)

/-- C3: a projectile strictly closer to its target than one step's travel is
treated as arrived: it is removed without moving, one blast with maximum
radius 40 and timer 60 plus exactly 15 particles appear at its target point,
and exactly when the projectile is an enemy, every standing structure whose
center lies strictly within 30 units of the arrival point is marked
destroyed; a projectile that has not arrived translates by its speed along
the unit direction vector toward its target. -/
theorem missile_arrival_semantics (pr : ℕ → ℕ → ℝ × ℝ × ℝ) (s : GameState)
    (k : ℕ) (m : Missile) (hs : 0 < m.speed) :
    (missileDist m < m.speed →
      (processMissile pr (s, k) m).1.missiles = s.missiles ∧
      (processMissile pr (s, k) m).1.explosions =
        s.explosions ++ [⟨s.nextId, m.target.x, m.target.y, 0, 40, 60⟩] ∧
      (processMissile pr (s, k) m).1.particles.length = s.particles.length + 15 ∧
      (∀ p ∈ burstParticles m.target.x m.target.y (pr k),
        p.x = m.target.x ∧ p.y = m.target.y) ∧
      (m.isEnemy = true →
        (processMissile pr (s, k) m).1.buildings = destroyNear m.target s.buildings) ∧
      (m.isEnemy = false →
        (processMissile pr (s, k) m).1.buildings = s.buildings)) ∧
    (¬ missileDist m < m.speed →
      (processMissile pr (s, k) m).1 =
        { s with missiles := s.missiles ++ [moveMissile m] } ∧
      (moveMissile m).current.x =
        m.current.x + (m.target.x - m.current.x) / missileDist m * m.speed ∧
      (moveMissile m).current.y =
        m.current.y + (m.target.y - m.current.y) / missileDist m * m.speed ∧
      ptDist (moveMissile m).current m.current = m.speed) ∧
    (∀ b, (destroyHit m.target b).isDestroyed = true ↔
        (b.isDestroyed = true ∨ ptDist (buildingCenter b) m.target < 30)) ∧
    destroyNear m.target s.buildings = s.buildings.map (destroyHit m.target) := by
  refine ⟨?_, ?_, fun b => destroyHit_isDestroyed m.target b, rfl⟩
  · intro harr
    refine ⟨?_, ?_, ?_, ?_, ?_, ?_⟩
    · simp only [processMissile, createExplosion]
      rw [if_pos harr]
      by_cases he : m.isEnemy = true
      · rw [if_pos he]
      · rw [if_neg he]
    · simp only [processMissile, createExplosion, mkExplosion,
        EXPLOSION_RADIUS, EXPLOSION_DURATION]
      rw [if_pos harr]
      by_cases he : m.isEnemy = true
      · rw [if_pos he]
      · rw [if_neg he]
    · simp only [processMissile, createExplosion]
      rw [if_pos harr]
      by_cases he : m.isEnemy = true
      · rw [if_pos he]
        show (s.particles ++ burstParticles m.target.x m.target.y (pr k)).length
          = s.particles.length + 15
        rw [List.length_append, burstParticles_length]
      · rw [if_neg he]
        show (s.particles ++ burstParticles m.target.x m.target.y (pr k)).length
          = s.particles.length + 15
        rw [List.length_append, burstParticles_length]
    · intro p hp
      simp only [burstParticles, List.mem_map] at hp
      obtain ⟨i, -, rfl⟩ := hp
      exact ⟨rfl, rfl⟩
    · intro he
      simp only [processMissile, createExplosion]
      rw [if_pos harr, if_pos he]
    · intro he
      simp only [processMissile, createExplosion]
      rw [if_pos harr, if_neg (by rw [he]; exact Bool.false_ne_true)]
  · intro hnd
    refine ⟨?_, rfl, rfl, moveMissile_dist m hs hnd⟩
    simp only [processMissile]
    rw [if_neg hnd]

/-- Concrete missile used in the C3 witness: it sits one unit from its
target and flies at speed 4, hence arrives. -/
def witMissile : Missile :=
  ⟨3, ⟨0, 0⟩, ⟨0, 299⟩, ⟨0, 300⟩, 4, true⟩

/-- Witness for C3. -/
theorem missile_arrival_semantics_witness :
    0 < witMissile.speed ∧
    (¬ missileDist witMissile < witMissile.speed →
      (processMissile (fun _ _ => (0, 0, 0)) (witState, 0) witMissile).1 =
        { witState with missiles := witState.missiles ++ [moveMissile witMissile] } ∧
      (moveMissile witMissile).current.x = witMissile.current.x
        + (witMissile.target.x - witMissile.current.x) / missileDist witMissile
          * witMissile.speed ∧
      (moveMissile witMissile).current.y = witMissile.current.y
        + (witMissile.target.y - witMissile.current.y) / missileDist witMissile
          * witMissile.speed ∧
      ptDist (moveMissile witMissile).current witMissile.current = witMissile.speed) :=
  ⟨by norm_num [witMissile],
   (missile_arrival_semantics (fun _ _ => (0, 0, 0)) witState 0 witMissile
      (by norm_num [witMissile])).2.1⟩

/-! ### Buildings do not influence projectile motion (C9) -/

/-- Two states that agree on everything except possibly the buildings. -/
def eqExceptBuildings (s t : GameState) : Prop :=
  s.phase = t.phase ∧ s.score = t.score ∧ s.ammo = t.ammo ∧
  s.missiles = t.missiles ∧ s.explosions = t.explosions ∧
  s.particles = t.particles ∧ s.nextId = t.nextId ∧ s.lastSpawn = t.lastSpawn

lemma processMissile_eqExcept (pr : ℕ → ℕ → ℝ × ℝ × ℝ) (m : Missile) (k : ℕ)
    (s t : GameState) (h : eqExceptBuildings s t) :
    eqExceptBuildings (processMissile pr (s, k) m).1 (processMissile pr (t, k) m).1 ∧
    (processMissile pr (s, k) m).2 = (processMissile pr (t, k) m).2 := by
  obtain ⟨h1, h2, h3, h4, h5, h6, h7, h8⟩ := h
  simp only [processMissile, createExplosion]
  by_cases harr : missileDist m < m.speed
  · rw [if_pos harr, if_pos harr]
    by_cases he : m.isEnemy = true
    · rw [if_pos he, if_pos he]
      exact ⟨⟨h1, h2, h3, h4, by rw [h5, h7], by rw [h6], by rw [h7], h8⟩, rfl⟩
    · rw [if_neg he, if_neg he]
      exact ⟨⟨h1, h2, h3, h4, by rw [h5, h7], by rw [h6], by rw [h7], h8⟩, rfl⟩
  · rw [if_neg harr, if_neg harr]
    exact ⟨⟨h1, h2, h3, by rw [h4], h5, h6, h7, h8⟩, rfl⟩

lemma missileFold_eqExcept (pr : ℕ → ℕ → ℝ × ℝ × ℝ) (ms : List Missile) :
    ∀ (k : ℕ) (s t : GameState), eqExceptBuildings s t →
      eqExceptBuildings (ms.foldl (processMissile pr) (s, k)).1
          (ms.foldl (processMissile pr) (t, k)).1 ∧
      (ms.foldl (processMissile pr) (s, k)).2 =
        (ms.foldl (processMissile pr) (t, k)).2 := by
  induction ms with
  | nil => exact fun k s t h => ⟨h, rfl⟩
  | cons m rest ih =>
    intro k s t h
    rw [List.foldl_cons, List.foldl_cons]
    have step := processMissile_eqExcept pr m k s t h
    have ihh := ih (processMissile pr (s, k) m).2 (processMissile pr (s, k) m).1
      (processMissile pr (t, k) m).1 step.1
    have e1 : ((processMissile pr (s, k) m).1, (processMissile pr (s, k) m).2)
        = processMissile pr (s, k) m := rfl
    have e2 : ((processMissile pr (t, k) m).1, (processMissile pr (s, k) m).2)
        = processMissile pr (t, k) m := by rw [step.2]
    rw [e1, e2] at ihh
    exact ihh

lemma missilePhase_buildings_indep (pr : ℕ → ℕ → ℝ × ℝ × ℝ) (s : GameState)
    (bs : List Building) :
    eqExceptBuildings (missilePhase pr { s with buildings := bs }).1
      (missilePhase pr s).1 :=
  (missileFold_eqExcept pr s.missiles 0
    { s with buildings := bs, missiles := [] } { s with missiles := [] }
    ⟨rfl, rfl, rfl, rfl, rfl, rfl, rfl, rfl⟩).1

lemma explosionPhase_buildings_indep (pr : ℕ → ℕ → ℝ × ℝ × ℝ) (s : GameState)
    (bs : List Building) :
    eqExceptBuildings (explosionPhase pr { s with buildings := bs })
      (explosionPhase pr s) :=
  ⟨rfl, rfl, rfl, rfl, rfl, rfl, rfl, rfl⟩

/-- C9: an enemy projectile's target is captured by value at spawn time (the
center of the chosen structure as it is at that moment), and any later
change to the buildings collection, such as marking that structure
destroyed, changes neither the projectiles' motion nor where they detonate:
the missile and explosion evolution of a tick is invariant under replacing
the buildings component. -/
theorem enemy_target_value_copy (pr1 pr2 : ℕ → ℕ → ℝ × ℝ × ℝ)
    (widthv : ℝ) (d : Difficulty) (r1 r2 r3 : ℝ)
    (s : GameState) (bs : List Building)
    (hne : ¬ (standingBuildings s).length = 0) :
    (spawnEnemy widthv d r1 r2 r3 s).missiles = s.missiles ++
      [{ id := s.nextId
         start := ⟨r2 * widthv, 0⟩
         current := ⟨r2 * widthv, 0⟩
         target := ⟨((standingBuildings s).getD
               (Int.toNat ⌊r1 * ((standingBuildings s).length : ℝ)⌋) dummyBuilding).x
             + ((standingBuildings s).getD
               (Int.toNat ⌊r1 * ((standingBuildings s).length : ℝ)⌋) dummyBuilding).width / 2,
           ((standingBuildings s).getD
               (Int.toNat ⌊r1 * ((standingBuildings s).length : ℝ)⌋) dummyBuilding).y
             + ((standingBuildings s).getD
               (Int.toNat ⌊r1 * ((standingBuildings s).length : ℝ)⌋) dummyBuilding).height / 2⟩
         speed := (ENEMY_SPEED_MIN + r3 * (ENEMY_SPEED_MAX - ENEMY_SPEED_MIN)) * speedMult d
         isEnemy := true }] ∧
    (missilePhase pr1 { s with buildings := bs }).1.missiles
      = (missilePhase pr1 s).1.missiles ∧
    (missilePhase pr1 { s with buildings := bs }).1.explosions
      = (missilePhase pr1 s).1.explosions ∧
    (missilePhase pr1 { s with buildings := bs }).1.particles
      = (missilePhase pr1 s).1.particles ∧
    (explosionPhase pr2 { s with buildings := bs }).missiles
      = (explosionPhase pr2 s).missiles ∧
    (explosionPhase pr2 { s with buildings := bs }).explosions
      = (explosionPhase pr2 s).explosions := by
  refine ⟨?_, (missilePhase_buildings_indep pr1 s bs).2.2.2.1,
    (missilePhase_buildings_indep pr1 s bs).2.2.2.2.1,
    (missilePhase_buildings_indep pr1 s bs).2.2.2.2.2.1,
    (explosionPhase_buildings_indep pr2 s bs).2.2.2.1,
    (explosionPhase_buildings_indep pr2 s bs).2.2.2.2.1⟩
  simp only [spawnEnemy]
  rw [if_neg hne]

/-- Witness for C9 at a concrete one-building state. -/
theorem enemy_target_value_copy_witness :
    ¬ (standingBuildings fireState).length = 0 ∧
    (missilePhase (fun _ _ => (0, 0, 0)) { fireState with buildings := [] }).1.missiles
      = (missilePhase (fun _ _ => (0, 0, 0)) fireState).1.missiles :=
  ⟨by norm_num [standingBuildings, fireState],
   (enemy_target_value_copy (fun _ _ => (0, 0, 0)) (fun _ _ => (0, 0, 0)) 800
      Difficulty.medium 0 0 0 fireState []
      (by norm_num [standingBuildings, fireState])).2.1⟩

/-! ### Spawn cadence and distribution (C6) -/

/-- The structure the spawn targets: `targetBuildings[floor(random * length)]`. -/
noncomputable def chosenTarget (s : GameState) (r1 : ℝ) : Building :=
  (standingBuildings s).getD
    (Int.toNat ⌊r1 * ((standingBuildings s).length : ℝ)⌋) dummyBuilding

/-- The enemy projectile `spawnEnemy` pushes, with oracle draws `r1 r2 r3`. -/
noncomputable def spawnedMissile (width : ℝ) (d : Difficulty) (r1 r2 r3 : ℝ)
    (s : GameState) : Missile :=
  { id := s.nextId
    start := ⟨r2 * width, 0⟩
    current := ⟨r2 * width, 0⟩
    target := ⟨(chosenTarget s r1).x + (chosenTarget s r1).width / 2,
               (chosenTarget s r1).y + (chosenTarget s r1).height / 2⟩
    speed := (ENEMY_SPEED_MIN + r3 * (ENEMY_SPEED_MAX - ENEMY_SPEED_MIN)) * speedMult d
    isEnemy := true }

lemma spawnEnemy_eq_of_nonempty (width : ℝ) (d : Difficulty) (r1 r2 r3 : ℝ)
    (s : GameState) (hlen : (standingBuildings s).length ≠ 0) :
    spawnEnemy width d r1 r2 r3 s =
      { s with
          missiles := s.missiles ++ [spawnedMissile width d r1 r2 r3 s]
          nextId := s.nextId + 1 } := by
  simp only [spawnEnemy, spawnedMissile, chosenTarget]
  rw [if_neg hlen]

/-- C6: enemy spawning happens exactly when the elapsed time since the last
spawn reference strictly exceeds `max(500, 2000 − (score/100)·200)` scaled
by the difficulty spawn multiplier (Easy 1.5, Medium 1.0, Hard 0.7); the
produced projectile starts at `(r2·width, 0)` inside the play width, flies
toward the center of a uniformly indexed standing structure, with speed in
`[0.5, 1.5)` scaled by the speed multiplier (Easy 0.7, Medium 1.0, Hard
1.3); with no standing structure nothing is produced; the elapsed-time
reference is reset to the tick's clock. -/
theorem spawn_cadence_and_distribution (width time r1 r2 r3 : ℝ)
    (d : Difficulty) (s : GameState)
    (hr1a : 0 ≤ r1) (hr1b : r1 < 1) (hr2a : 0 ≤ r2) (hr2b : r2 < 1)
    (hr3a : 0 ≤ r3) (hr3b : r3 < 1) (hw : 0 < width) :
    (getDifficultyModifiers Difficulty.easy = (0.7, 1.5) ∧
     getDifficultyModifiers Difficulty.medium = (1.0, 1.0) ∧
     getDifficultyModifiers Difficulty.hard = (1.3, 0.7)) ∧
    (¬ max 500 (2000 - (s.score : ℝ) / 100 * 200) * spawnMult d < time - s.lastSpawn →
      spawnStep width d time r1 r2 r3 s = s) ∧
    (max 500 (2000 - (s.score : ℝ) / 100 * 200) * spawnMult d < time - s.lastSpawn →
      ((standingBuildings s).length = 0 →
        spawnStep width d time r1 r2 r3 s = { s with lastSpawn := time }) ∧
      ((standingBuildings s).length ≠ 0 →
        spawnStep width d time r1 r2 r3 s =
          { s with
              missiles := s.missiles ++ [spawnedMissile width d r1 r2 r3 s]
              nextId := s.nextId + 1
              lastSpawn := time } ∧
        chosenTarget s r1 ∈ standingBuildings s ∧
        (chosenTarget s r1).isDestroyed = false ∧
        (spawnedMissile width d r1 r2 r3 s).start = ⟨r2 * width, 0⟩ ∧
        0 ≤ r2 * width ∧ r2 * width < width ∧
        (spawnedMissile width d r1 r2 r3 s).target =
          ⟨(chosenTarget s r1).x + (chosenTarget s r1).width / 2,
           (chosenTarget s r1).y + (chosenTarget s r1).height / 2⟩ ∧
        ENEMY_SPEED_MIN * speedMult d ≤ (spawnedMissile width d r1 r2 r3 s).speed ∧
        (spawnedMissile width d r1 r2 r3 s).speed < ENEMY_SPEED_MAX * speedMult d ∧
        (spawnedMissile width d r1 r2 r3 s).isEnemy = true)) := by
  refine ⟨⟨rfl, rfl, rfl⟩, ?_, ?_⟩
  · intro hno
    simp only [spawnStep]
    exact if_neg hno
  · intro hcond
    constructor
    · intro hlen
      have hse : spawnEnemy width d r1 r2 r3 s = s := by
        simp only [spawnEnemy]
        exact if_pos hlen
      simp only [spawnStep]
      rw [if_pos hcond, hse]
    · intro hlen
      have hmult : 0 < speedMult d := by
        cases d <;> norm_num [speedMult, getDifficultyModifiers]
      have hn : 0 < (standingBuildings s).length := Nat.pos_of_ne_zero hlen
      have hfl0 : 0 ≤ ⌊r1 * ((standingBuildings s).length : ℝ)⌋ :=
        Int.floor_nonneg.mpr (by positivity)
      have hflt : ⌊r1 * ((standingBuildings s).length : ℝ)⌋
          < ((standingBuildings s).length : ℤ) := by
        apply Int.floor_lt.mpr
        have h1n : (1 : ℝ) ≤ ((standingBuildings s).length : ℝ) := by
          exact_mod_cast hn
        push_cast
        nlinarith
      have hidx : Int.toNat ⌊r1 * ((standingBuildings s).length : ℝ)⌋
          < (standingBuildings s).length := by omega
      have hget : chosenTarget s r1 = (standingBuildings s).get
          ⟨Int.toNat ⌊r1 * ((standingBuildings s).length : ℝ)⌋, hidx⟩ := by
        unfold chosenTarget
        exact List.getD_eq_getElem (standingBuildings s) dummyBuilding hidx
      have hmem : chosenTarget s r1 ∈ standingBuildings s := by
        rw [hget]
        exact List.get_mem _ _ hidx
      refine ⟨?_, hmem, ?_, rfl, mul_nonneg hr2a (le_of_lt hw), ?_, rfl, ?_, ?_, rfl⟩
      · have hse := spawnEnemy_eq_of_nonempty width d r1 r2 r3 s hlen
        simp only [spawnStep]
        rw [if_pos hcond, hse]
      · have hmf := List.mem_filter.mp hmem
        exact decide_eq_true_eq.mp hmf.2
      · calc r2 * width < 1 * width := by
              exact mul_lt_mul_of_pos_right hr2b hw
          _ = width := one_mul width
      · show ENEMY_SPEED_MIN * speedMult d
          ≤ (ENEMY_SPEED_MIN + r3 * (ENEMY_SPEED_MAX - ENEMY_SPEED_MIN)) * speedMult d
        have : ENEMY_SPEED_MIN ≤ ENEMY_SPEED_MIN + r3 * (ENEMY_SPEED_MAX - ENEMY_SPEED_MIN) := by
          norm_num [ENEMY_SPEED_MIN, ENEMY_SPEED_MAX]
          positivity
        exact mul_le_mul_of_nonneg_right this (le_of_lt hmult)
      · show (ENEMY_SPEED_MIN + r3 * (ENEMY_SPEED_MAX - ENEMY_SPEED_MIN)) * speedMult d
          < ENEMY_SPEED_MAX * speedMult d
        have : ENEMY_SPEED_MIN + r3 * (ENEMY_SPEED_MAX - ENEMY_SPEED_MIN)
            < ENEMY_SPEED_MAX := by
          norm_num [ENEMY_SPEED_MIN, ENEMY_SPEED_MAX]
          nlinarith
        exact mul_lt_mul_of_pos_right this hmult

/-- Witness for C6: a concrete spawning tick at a state with one standing
building, Medium difficulty, spawn interval exceeded. -/
theorem spawn_cadence_and_distribution_witness :
    (0 ≤ (0 : ℝ) ∧ (0 : ℝ) < 1 ∧ 0 ≤ (1 / 2 : ℝ) ∧ (1 / 2 : ℝ) < 1 ∧
      (0 : ℝ) < 800) ∧
    (max 500 (2000 - ((fireState.score : ℤ) : ℝ) / 100 * 200)
        * spawnMult Difficulty.medium < 2500 - fireState.lastSpawn →
      ((standingBuildings fireState).length = 0 →
        spawnStep 800 Difficulty.medium 2500 0 (1 / 2) 0 fireState =
          { fireState with lastSpawn := 2500 }) ∧
      ((standingBuildings fireState).length ≠ 0 →
        spawnStep 800 Difficulty.medium 2500 0 (1 / 2) 0 fireState =
          { fireState with
              missiles := fireState.missiles ++
                [spawnedMissile 800 Difficulty.medium 0 (1 / 2) 0 fireState]
              nextId := fireState.nextId + 1
              lastSpawn := 2500 } ∧
        chosenTarget fireState 0 ∈ standingBuildings fireState ∧
        (chosenTarget fireState 0).isDestroyed = false ∧
        (spawnedMissile 800 Difficulty.medium 0 (1 / 2) 0 fireState).start =
          ⟨(1 / 2) * 800, 0⟩ ∧
        0 ≤ (1 / 2 : ℝ) * 800 ∧ (1 / 2 : ℝ) * 800 < 800 ∧
        (spawnedMissile 800 Difficulty.medium 0 (1 / 2) 0 fireState).target =
          ⟨(chosenTarget fireState 0).x + (chosenTarget fireState 0).width / 2,
           (chosenTarget fireState 0).y + (chosenTarget fireState 0).height / 2⟩ ∧
        ENEMY_SPEED_MIN * speedMult Difficulty.medium
          ≤ (spawnedMissile 800 Difficulty.medium 0 (1 / 2) 0 fireState).speed ∧
        (spawnedMissile 800 Difficulty.medium 0 (1 / 2) 0 fireState).speed
          < ENEMY_SPEED_MAX * speedMult Difficulty.medium ∧
        (spawnedMissile 800 Difficulty.medium 0 (1 / 2) 0 fireState).isEnemy = true)) :=
  ⟨⟨by norm_num, by norm_num, by norm_num, by norm_num, by norm_num⟩,
   (spawn_cadence_and_distribution 800 2500 0 (1 / 2) 0 Difficulty.medium fireState
      (by norm_num) (by norm_num) (by norm_num) (by norm_num) (by norm_num)
      (by norm_num) (by norm_num)).2.2⟩

/-! ### Suspension and resume (C8) -/

/-- C8: while the help overlay is open the tick is a complete no-op (the
whole state, the spawn reference included, is untouched); the effect re-run
on resume rebases the spawn reference to the resume clock; hence on the
first tick after a resume, however long the pause lasted, no enemy spawns
as long as that tick comes within the (post-reset minimum) 1400 ms spawn
interval of the resume instant. -/
theorem pause_suspends_and_rebases (width height : ℝ) (d : Difficulty)
    (t0 t1 time r1 r2 r3 : ℝ) (pr1 pr2 : ℕ → ℕ → ℝ × ℝ × ℝ) (s : GameState)
    (hplay : s.phase = Phase.playing) (hgap : t1 - t0 ≤ 1400) :
    update width d true time r1 r2 r3 pr1 pr2 s = s ∧
    (resumeEffect width height t0 s).lastSpawn = t0 ∧
    (update width d false t1 r1 r2 r3 pr1 pr2
        (resumeEffect width height t0 s)).missiles = [] := by
  have hs' : resumeEffect width height t0 s =
      { initGame width height s with lastSpawn := t0 } := by
    simp only [resumeEffect]
    exact if_pos hplay
  have hno : ¬ (max 500 (2000 - (((0 : ℤ) : ℝ)) / 100 * 200) * spawnMult d
      < t1 - t0) := by
    have hm : (1400 : ℝ) ≤ 2000 * spawnMult d := by
      cases d <;> norm_num [spawnMult, getDifficultyModifiers]
    have hmax : max (500 : ℝ) (2000 - ((0 : ℤ) : ℝ) / 100 * 200) = 2000 := by
      norm_num
    rw [hmax]
    exact not_lt.mpr (le_trans hgap hm)
  have h1 : spawnStep width d t1 r1 r2 r3 { initGame width height s with lastSpawn := t0 }
      = { initGame width height s with lastSpawn := t0 } := by
    simp only [spawnStep]
    exact if_neg hno
  refine ⟨rfl, ?_, ?_⟩
  · rw [hs']
  · rw [update_false_eq, hs', h1]
    rfl

/-- Witness for C8 at a concrete state and clock. -/
theorem pause_suspends_and_rebases_witness :
    witState.phase = Phase.playing ∧ (1000 : ℝ) - 0 ≤ 1400 ∧
    (update 800 Difficulty.hard true 0 0 0 0 (fun _ _ => (0, 0, 0))
        (fun _ _ => (0, 0, 0)) witState = witState ∧
      (resumeEffect 800 600 0 witState).lastSpawn = 0 ∧
      (update 800 Difficulty.hard false 1000 0 0 0 (fun _ _ => (0, 0, 0))
        (fun _ _ => (0, 0, 0)) (resumeEffect 800 600 0 witState)).missiles = []) :=
  ⟨rfl, by norm_num,
   pause_suspends_and_rebases 800 600 Difficulty.hard 0 1000 0 0 0 0
     (fun _ _ => (0, 0, 0)) (fun _ _ => (0, 0, 0)) witState rfl (by norm_num)⟩

/-! ### Blast-catch phase: the secondary blast is discarded (C2, C7)

The source pushes the chain-reaction explosion onto the array that is being
filtered; the filter result, which then replaces the array, can only contain
visited elements, so the pushed secondary blast is lost at the end of the
phase while the score award, the particle burst and the id increment
persist.  The two theorems below evaluate the phase at concrete states
exhibiting this. -/

/-- Blast used in the C2 evaluation: center `(0,0)`, timer 31, so that after
the decrement the progress is one half and the radius is `sin(pi/2)*40 = 40`. -/
def cbE : Explosion := ⟨0, 0, 0, 0, 40, 31⟩

/-- Enemy projectile at distance 10 from the blast center. -/
def cbM : Missile := ⟨1, ⟨0, 0⟩, ⟨0, 10⟩, ⟨0, 400⟩, 1, true⟩

def cbState : GameState :=
  ⟨Phase.playing, 0, ⟨20, 40, 20⟩, [cbM], [cbE], [], [], 2, 0⟩

lemma stepExplosionTimer_cbE_radius : (stepExplosionTimer cbE).radius = 40 := by
  show Real.sin ((1 - (((31 : ℤ) - 1 : ℤ) : ℝ) / ((EXPLOSION_DURATION : ℤ) : ℝ))
      * Real.pi) * 40 = 40
  have h30 : (((31 : ℤ) - 1 : ℤ) : ℝ) = 30 := by norm_num
  have h60 : ((EXPLOSION_DURATION : ℤ) : ℝ) = 60 := by norm_num [EXPLOSION_DURATION]
  rw [h30, h60]
  have hhalf : (1 - (30 : ℝ) / 60) * Real.pi = Real.pi / 2 := by ring
  rw [hhalf, Real.sin_pi_div_two, one_mul]

lemma cb_dist : ptDist cbM.current ⟨(stepExplosionTimer cbE).x, (stepExplosionTimer cbE).y⟩
    = 10 := by
  show Real.sqrt (((0 : ℝ) - 0) ^ 2 + ((10 : ℝ) - 0) ^ 2) = 10
  rw [show ((0 : ℝ) - 0) ^ 2 + ((10 : ℝ) - 0) ^ 2 = 10 ^ 2 by norm_num]
  exact Real.sqrt_sq (by norm_num)

lemma cb_catch : catchStep (fun _ _ => (0, 0, 0)) (stepExplosionTimer cbE)
    ⟨[], [], [], 0, 2, [], 0⟩ cbM =
    ⟨[], [], burstParticles 0 10 (fun _ => (0, 0, 0)), 20, 3,
      [mkExplosion 2 0 10], 1⟩ := by
  unfold catchStep
  rw [if_pos ⟨rfl, by rw [cb_dist, stepExplosionTimer_cbE_radius]; norm_num⟩]
  rfl

lemma cb_processExplosion : processExplosion (fun _ _ => (0, 0, 0))
    ⟨[], [cbM], [], 0, 2, [], 0⟩ cbE =
    ⟨[stepExplosionTimer cbE], [], burstParticles 0 10 (fun _ => (0, 0, 0)), 20, 3,
      [mkExplosion 2 0 10], 1⟩ := by
  simp only [processExplosion, List.foldl_cons, List.foldl_nil]
  rw [show ({ (⟨[], [cbM], [], 0, 2, [], 0⟩ : ExpAcc) with missiles := [] } : ExpAcc)
      = (⟨[], [], [], 0, 2, [], 0⟩ : ExpAcc) from rfl]
  rw [cb_catch]
  rw [if_pos (by decide : (0 : ℤ) < (stepExplosionTimer cbE).timer)]
  rfl

lemma cb_phase : explosionPhase (fun _ _ => (0, 0, 0)) cbState =
    { cbState with
        explosions := [stepExplosionTimer cbE]
        missiles := []
        particles := burstParticles 0 10 (fun _ => (0, 0, 0))
        score := 20
        nextId := 3 } := by
  unfold explosionPhase
  have h1 : cbState.explosions = [cbE] := rfl
  have h2 : (⟨[], cbState.missiles, cbState.particles, cbState.score,
      cbState.nextId, [], 0⟩ : ExpAcc) = (⟨[], [cbM], [], 0, 2, [], 0⟩ : ExpAcc) := rfl
  rw [h1, h2, List.foldl_cons, List.foldl_nil, cb_processExplosion]

/-- C2 failing input, evaluated: one live blast catches the only enemy
projectile; the projectile is removed, the score rises by exactly 20, the
15-particle burst and the id increment of `createExplosion` happen, but the
end-of-phase explosion list holds only the original blast (whose center has
`y = 0`): the claimed secondary blast at the projectile's position
`(0, 10)` does not exist after the tick. -/
theorem chain_blast_discarded_on_catch :
    (explosionPhase (fun _ _ => (0, 0, 0)) cbState).missiles = [] ∧
    (explosionPhase (fun _ _ => (0, 0, 0)) cbState).score = 20 ∧
    (explosionPhase (fun _ _ => (0, 0, 0)) cbState).nextId = 3 ∧
    (explosionPhase (fun _ _ => (0, 0, 0)) cbState).particles.length = 15 ∧
    (explosionPhase (fun _ _ => (0, 0, 0)) cbState).explosions.length = 1 ∧
    (∀ e ∈ (explosionPhase (fun _ _ => (0, 0, 0)) cbState).explosions,
      e.y = 0 ∧ e.timer = 30) := by
  rw [cb_phase]
  refine ⟨rfl, rfl, rfl, burstParticles_length 0 10 _, rfl, ?_⟩
  intro e he
  rw [List.mem_singleton] at he
  subst he
  exact ⟨rfl, by decide⟩

/-- Blast and projectile of the C7 evaluation: center `(100, 0)`, enemy at
`(100, 30)`, distance 30, radius again 40 after the step. -/
def cb2E : Explosion := ⟨5, 100, 0, 0, 40, 31⟩

def cb2M : Missile := ⟨6, ⟨100, 0⟩, ⟨100, 30⟩, ⟨100, 400⟩, 1, true⟩

def cb2State : GameState :=
  ⟨Phase.playing, 0, ⟨20, 40, 20⟩, [cb2M], [cb2E], [], [], 7, 0⟩

lemma stepExplosionTimer_cb2E_radius : (stepExplosionTimer cb2E).radius = 40 := by
  show Real.sin ((1 - (((31 : ℤ) - 1 : ℤ) : ℝ) / ((EXPLOSION_DURATION : ℤ) : ℝ))
      * Real.pi) * 40 = 40
  have h30 : (((31 : ℤ) - 1 : ℤ) : ℝ) = 30 := by norm_num
  have h60 : ((EXPLOSION_DURATION : ℤ) : ℝ) = 60 := by norm_num [EXPLOSION_DURATION]
  rw [h30, h60]
  have hhalf : (1 - (30 : ℝ) / 60) * Real.pi = Real.pi / 2 := by ring
  rw [hhalf, Real.sin_pi_div_two, one_mul]

lemma cb2_dist : ptDist cb2M.current
    ⟨(stepExplosionTimer cb2E).x, (stepExplosionTimer cb2E).y⟩ = 30 := by
  show Real.sqrt (((100 : ℝ) - 100) ^ 2 + ((30 : ℝ) - 0) ^ 2) = 30
  rw [show ((100 : ℝ) - 100) ^ 2 + ((30 : ℝ) - 0) ^ 2 = 30 ^ 2 by norm_num]
  exact Real.sqrt_sq (by norm_num)

lemma cb2_catch : catchStep (fun _ _ => (0, 0, 0)) (stepExplosionTimer cb2E)
    ⟨[], [], [], 0, 7, [], 0⟩ cb2M =
    ⟨[], [], burstParticles 100 30 (fun _ => (0, 0, 0)), 20, 8,
      [mkExplosion 7 100 30], 1⟩ := by
  unfold catchStep
  rw [if_pos ⟨rfl, by rw [cb2_dist, stepExplosionTimer_cb2E_radius]; norm_num⟩]
  rfl

lemma cb2_processExplosion : processExplosion (fun _ _ => (0, 0, 0))
    ⟨[], [cb2M], [], 0, 7, [], 0⟩ cb2E =
    ⟨[stepExplosionTimer cb2E], [], burstParticles 100 30 (fun _ => (0, 0, 0)), 20, 8,
      [mkExplosion 7 100 30], 1⟩ := by
  simp only [processExplosion, List.foldl_cons, List.foldl_nil]
  rw [show ({ (⟨[], [cb2M], [], 0, 7, [], 0⟩ : ExpAcc) with missiles := [] } : ExpAcc)
      = (⟨[], [], [], 0, 7, [], 0⟩ : ExpAcc) from rfl]
  rw [cb2_catch]
  rw [if_pos (by decide : (0 : ℤ) < (stepExplosionTimer cb2E).timer)]
  rfl

lemma cb2_phase : explosionPhase (fun _ _ => (0, 0, 0)) cb2State =
    { cb2State with
        explosions := [stepExplosionTimer cb2E]
        missiles := []
        particles := burstParticles 100 30 (fun _ => (0, 0, 0))
        score := 20
        nextId := 8 } := by
  unfold explosionPhase
  have h1 : cb2State.explosions = [cb2E] := rfl
  have h2 : (⟨[], cb2State.missiles, cb2State.particles, cb2State.score,
      cb2State.nextId, [], 0⟩ : ExpAcc) = (⟨[], [cb2M], [], 0, 7, [], 0⟩ : ExpAcc) := rfl
  rw [h1, h2, List.foldl_cons, List.foldl_nil, cb2_processExplosion]

lemma cb2_phase2 : explosionPhase (fun _ _ => (0, 0, 0))
    { cb2State with
        explosions := [stepExplosionTimer cb2E]
        missiles := []
        particles := burstParticles 100 30 (fun _ => (0, 0, 0))
        score := 20
        nextId := 8 } =
    { cb2State with
        explosions := [stepExplosionTimer (stepExplosionTimer cb2E)]
        missiles := []
        particles := burstParticles 100 30 (fun _ => (0, 0, 0))
        score := 20
        nextId := 8 } := by
  unfold explosionPhase
  rw [List.foldl_cons, List.foldl_nil]
  simp only [processExplosion, List.foldl_nil]
  rw [if_pos (by decide : (0 : ℤ) < (stepExplosionTimer (stepExplosionTimer cb2E)).timer)]
  rfl

/-- C7 failing input, evaluated over two consecutive blast-catch phases: on
tick N the only enemy projectile is caught (score rises by 20, so per the
claim a secondary blast appears at `(100, 30)`), yet after tick N the
explosion list holds only the original blast, and after tick N+1 it still
holds only the original blast's descendant (center `y = 0`, timer 29): the
secondary blast neither catches anything nor ever starts growing, because
the phase-ending reassignment discarded it on tick N. -/
theorem secondary_blast_never_grows :
    (explosionPhase (fun _ _ => (0, 0, 0)) cb2State).score = 20 ∧
    (explosionPhase (fun _ _ => (0, 0, 0)) cb2State).missiles = [] ∧
    (explosionPhase (fun _ _ => (0, 0, 0)) cb2State).explosions.length = 1 ∧
    (∀ e ∈ (explosionPhase (fun _ _ => (0, 0, 0)) cb2State).explosions, e.y = 0) ∧
    (explosionPhase (fun _ _ => (0, 0, 0))
        (explosionPhase (fun _ _ => (0, 0, 0)) cb2State)).explosions.length = 1 ∧
    (∀ e ∈ (explosionPhase (fun _ _ => (0, 0, 0))
        (explosionPhase (fun _ _ => (0, 0, 0)) cb2State)).explosions,
      e.y = 0 ∧ e.timer = 29) := by
  rw [cb2_phase, cb2_phase2]
  refine ⟨rfl, rfl, rfl, ?_, rfl, ?_⟩
  · intro e he
    rw [List.mem_singleton] at he
    subst he
    rfl
  · intro e he
    rw [List.mem_singleton] at he
    subst he
    exact ⟨rfl, by decide⟩

end Nova
